import Mathlib

/-!
Verification of the semantic dataset/variable search subsystem of the
`mcp-census` repository (files `vector_dbs/datasets_db.py`,
`vector_dbs/quick_search.py`, `functions/census_api.py`), as a shallow
embedding in Lean 4.

Modelling conventions:
* Python dicts that the code reads with `.get` are embedded as structures
  with `Option` fields; `.get(k, default)` becomes `Option.getD`.
* Python exceptions (`IndexError` on `[]`-indexing an empty list,
  `KeyError` on a missing dict key, `ValueError` on unpacking) are embedded
  with `Except`.
* The FAISS / langchain / HuggingFace vector-store and embedding machinery
  is an external library whose code is not part of this repository.  It is
  modelled from the spec (doc comments below say `Modelled from the spec:`):
  an index is the insertion-ordered list of documents, the embedding
  provider is abstracted into a similarity oracle
  `sim : String → String → ℚ` giving the cosine similarity of a query and a
  document content string, and similarity search returns the top-`k`
  filter-matching documents ordered by descending similarity with ties
  broken by insertion order.
-/

/-- LangChain `Document`: a content string plus a metadata bag.  The
metadata type varies per call site, so it is a type parameter. -/
structure Document (μ : Type) where
  content : String
  metadata : μ
deriving DecidableEq, Repr

/-- One entry of a dataset descriptor's `distribution` list.  The code only
reads `accessURL`, with a placeholder default. -/
structure DistEntry where
  accessURL : Option String
deriving DecidableEq, Repr

/-- An upstream dataset descriptor from `https://api.census.gov/data.json`,
restricted to the keys that `fetch_census_dataset_documents` reads.  Every
key may be absent upstream, hence `Option` everywhere. -/
structure DatasetDescriptor where
  c_vintage : Option Int
  title : Option String
  description : Option String
  c_dataset : Option (List String)
  distribution : Option (List DistEntry)
deriving DecidableEq, Repr

/-- The metadata dict attached to a dataset Document: the original
descriptor augmented in place with the derived `apiBaseURL` and `key`
fields (`dataset["apiBaseURL"] = ...`, `dataset["key"] = ...`). -/
structure DSMeta where
  c_vintage : Option Int
  title : Option String
  description : Option String
  c_dataset : Option (List String)
  distribution : Option (List DistEntry)
  apiBaseURL : String
  key : String
deriving DecidableEq, Repr

/-- Python exceptions raised by the embedded code. -/
inductive PyError where
  | indexError
  | keyError
  | valueError
deriving DecidableEq, Repr

/-- Python `f"{x}"` rendering of the vintage value: the `c_vintage` integer
when present, else the string default passed to `.get`. -/
def vintageText (v : Option Int) : String :=
  match v with
  | some n => toString n
  | none => "Unknown Vintage"

/-- The body of the `for dataset in data` loop of
`fetch_census_dataset_documents` (`datasets_db.py` lines 37-56): read
`c_vintage` / `title` / `description` with placeholder defaults, index the
first `distribution` entry (raising `IndexError` when the list is absent or
empty), read its `accessURL` with a placeholder default, join `c_dataset`
with `/`, and build the Document. -/
def mapDatasetDescriptor (ds : DatasetDescriptor) : Except PyError (Document DSMeta) :=
  let vintage := vintageText ds.c_vintage
  let title := ds.title.getD "No Title"
  let descr := ds.description.getD "No Description"
  match (ds.distribution.getD []).head? with
  | none => .error .indexError
  | some firstEntry =>
    let api_base_url := firstEntry.accessURL.getD "No API Base URL"
    let key := String.intercalate "/" (ds.c_dataset.getD [])
    .ok
      { content := "Vintage: " ++ vintage ++ "\nDataset: " ++ key ++
          "\nAPI base URL: " ++ api_base_url ++ "\nTitle: " ++ title ++
          "\nDescription: " ++ descr
        metadata :=
          { c_vintage := ds.c_vintage
            title := ds.title
            description := ds.description
            c_dataset := ds.c_dataset
            distribution := ds.distribution
            apiBaseURL := api_base_url
            key := key } }

/-- `fetch_census_dataset_documents` (`datasets_db.py` lines 19-58) with the
HTTP fetch abstracted: the argument is the `dataset` list of the upstream
JSON.  The Python loop appends one Document per descriptor and propagates
the first exception raised. -/
def fetch_census_dataset_documents (data : List DatasetDescriptor) :
    Except PyError (List (Document DSMeta)) :=
  data.mapM mapDatasetDescriptor

/-- Modelled from the spec: a vector index (FAISS is not part of this
repository).  Per §3 it is the collection of `(embedding, Document)` pairs
in insertion order; embeddings are kept abstract, so the index is the
insertion-ordered document list. -/
structure VectorDB (μ : Type) where
  docs : List (Document μ)
deriving DecidableEq, Repr

/-- Modelled from the spec: the ranking order of §4.3 step 3 — candidate `a`
precedes candidate `b` when its similarity to the query is strictly larger,
or the similarities are equal and `a` was inserted first.  Candidates carry
their insertion index.  `sim q c` is the abstract cosine similarity between
the embedded query `q` and the embedded content `c`. -/
def rankLE (sim : String → String → ℚ) (q : String) {μ : Type}
    (a b : Nat × Document μ) : Prop :=
  sim q b.2.content < sim q a.2.content ∨
    (sim q a.2.content = sim q b.2.content ∧ a.1 ≤ b.1)

instance (sim : String → String → ℚ) (q : String) {μ : Type} :
    DecidableRel (rankLE sim q (μ := μ)) := by
  intro a b
  unfold rankLE
  infer_instance

instance (sim : String → String → ℚ) (q : String) {μ : Type} :
    IsTotal (Nat × Document μ) (rankLE sim q) := by
  constructor
  intro a b
  rcases lt_trichotomy (sim q a.2.content) (sim q b.2.content) with h | h | h
  · exact Or.inr (Or.inl h)
  · rcases Nat.le_total a.1 b.1 with hn | hn
    · exact Or.inl (Or.inr ⟨h, hn⟩)
    · exact Or.inr (Or.inr ⟨h.symm, hn⟩)
  · exact Or.inl (Or.inl h)

instance (sim : String → String → ℚ) (q : String) {μ : Type} :
    IsTrans (Nat × Document μ) (rankLE sim q) := by
  constructor
  intro a b c hab hbc
  rcases hab with hab | ⟨hab, hab'⟩
  · rcases hbc with hbc | ⟨hbc, _⟩
    · exact Or.inl (hbc.trans hab)
    · exact Or.inl (hbc ▸ hab)
  · rcases hbc with hbc | ⟨hbc, hbc'⟩
    · exact Or.inl (hab ▸ hbc)
    · exact Or.inr ⟨hab.trans hbc, hab'.trans hbc'⟩

/-- Modelled from the spec (§4.3 `search`, steps 1-4): keep the
filter-matching candidates with their insertion indices, order them by
descending similarity with ties broken by insertion order, and take the
top `k`. -/
def similaritySearchRanked (sim : String → String → ℚ) {μ : Type}
    (db : VectorDB μ) (q : String) (k : Nat) (flt : μ → Bool) :
    List (Nat × Document μ) :=
  (List.insertionSort (rankLE sim q)
    (db.docs.enum.filter (fun p => flt p.2.metadata))).take k

/-- Modelled from the spec: `FAISS.similarity_search(query, k, filter)` —
the ranked top-`k` documents without their insertion indices. -/
def similarity_search (sim : String → String → ℚ) {μ : Type}
    (db : VectorDB μ) (q : String) (k : Nat) (flt : μ → Bool) :
    List (Document μ) :=
  (similaritySearchRanked sim db q k flt).map (fun p => p.2)

/-- Python truthiness of an optional int argument (`if vintage:`):
`None` and `0` are falsy. -/
def truthyInt (v : Option Int) : Bool :=
  match v with
  | none => false
  | some n => n != 0

/-- Python truthiness of an optional string argument (`if key:`):
`None` and `""` are falsy. -/
def truthyStr (s : Option String) : Bool :=
  match s with
  | none => false
  | some s' => s' != ""

/-- The `metadata_filter` dict built by `search_census_datasets`
(`datasets_db.py` lines 148-154): a key is added only when the argument is
truthy. -/
structure MetaFilter where
  c_vintage : Option Int
  key : Option String
  apiBaseURL : Option String
deriving DecidableEq, Repr

def mkFilter (vintage : Option Int) (key : Option String)
    (api_base_url : Option String) : MetaFilter :=
  { c_vintage := if truthyInt vintage then vintage else none
    key := if truthyStr key then key else none
    apiBaseURL := if truthyStr api_base_url then api_base_url else none }

/-- Modelled from the spec (§3 metadata filter): exact-match on every
present key, applied conjunctively; an absent key is no constraint. -/
def matchesFilter (f : MetaFilter) (m : DSMeta) : Bool :=
  (match f.c_vintage with
   | none => true
   | some v => m.c_vintage == some v) &&
  (match f.key with
   | none => true
   | some s => m.key == s) &&
  (match f.apiBaseURL with
   | none => true
   | some s => m.apiBaseURL == s)

/-- `search_census_datasets` (`datasets_db.py` lines 126-157) up to the
final projection: build the metadata filter from the truthy arguments and
run the similarity search against the index. -/
def search_census_datasets_docs (sim : String → String → ℚ) (query : String)
    (k : Nat) (vintage : Option Int) (key : Option String)
    (api_base_url : Option String) (vectordb : VectorDB DSMeta) :
    List (Document DSMeta) :=
  similarity_search sim vectordb query k
    (matchesFilter (mkFilter vintage key api_base_url))

/-- `search_census_datasets` (`datasets_db.py` lines 126-157): the
`page_content` strings of the matching documents. -/
def search_census_datasets (sim : String → String → ℚ) (query : String)
    (k : Nat) (vintage : Option Int) (key : Option String)
    (api_base_url : Option String) (vectordb : VectorDB DSMeta) :
    List String :=
  (search_census_datasets_docs sim query k vintage key api_base_url
    vectordb).map (fun d => d.content)

/-- `quick_faiss_search` (`quick_search.py` lines 39-67): build a throwaway
index from the document list (`FAISS.from_documents` keeps insertion order)
and run an unfiltered similarity search for the query with `top_k`
results. -/
def quick_faiss_search (sim : String → String → ℚ) {μ : Type}
    (documents : List (Document μ)) (query : String) (top_k : Nat) :
    List (Document μ) :=
  similarity_search sim { docs := documents } query top_k (fun _ => true)

/-- The upstream `variables.json` response: the `"variables"` object as an
insertion-ordered mapping from variable name to definition (definitions of
abstract type `δ`), plus the remaining top-level keys of the JSON object
(values of abstract type `ρ`). -/
structure VarsResponse (δ ρ : Type) where
  vars : List (String × δ)
  rest : List (String × ρ)
deriving DecidableEq, Repr

/-- `fetch_dataset_variables` (`census_api.py` lines 76-117) with the HTTP
fetch abstracted: the argument `resp` is the parsed upstream response and
`renderDef` is Python's `f"{definition}"` rendering of a definition.  When
`query` is truthy, one single-entry-metadata Document per variable is built,
`quick_faiss_search` is run with its default `top_k = 10`, and the result
metadata maps are merged into a fresh `{"variables": ...}` dict (other
top-level keys of the upstream response are dropped); otherwise the upstream
response is returned unchanged. -/
def fetch_dataset_variables (sim : String → String → ℚ) {δ ρ : Type}
    (renderDef : δ → String) (resp : VarsResponse δ ρ)
    (query : Option String) : VarsResponse δ ρ :=
  if truthyStr query then
    let varDocs : List (Document (String × δ)) :=
      resp.vars.map (fun p =>
        { content := "Variable: " ++ p.1 ++ "\nDetails: " ++ renderDef p.2
          metadata := p })
    let search_results := quick_faiss_search sim varDocs (query.getD "") 10
    { vars := search_results.map (fun d => d.metadata), rest := [] }
  else
    resp

/-- Side effects of `load_or_create_vectordb`, recorded as an action log:
fetching the upstream catalog, embedding the documents
(`FAISS.from_documents`), saving the index to disk, loading it from disk. -/
inductive BuildAction where
  | fetchCatalog
  | embedDocs
  | saveIndex
  | loadIndex
deriving DecidableEq, Repr

/-- `create_vectordb` (`datasets_db.py` lines 61-82).  Modelled from the
spec for the `FAISS.from_documents` internals: the index holds the
documents in insertion order with one embedding each. -/
def create_vectordb (documents : List (Document DSMeta)) : VectorDB DSMeta :=
  { docs := documents }

/-- `load_or_create_vectordb` (`datasets_db.py` lines 97-119) with the
filesystem and network abstracted: `disk` is the serialized index at
`PERSIST_DIR` (`none` when `os.path.exists` is false) and `upstream` is the
catalog the fetch would return.  Modelled from the spec for `save_local` /
`load_local`: durable storage round-trips the index losslessly.  Returns
the index, the new disk state and the log of actions performed. -/
def load_or_create_vectordb (disk : Option (VectorDB DSMeta))
    (upstream : List DatasetDescriptor) :
    Except PyError (VectorDB DSMeta × Option (VectorDB DSMeta) × List BuildAction) :=
  match disk with
  | some vectordb => .ok (vectordb, some vectordb, [.loadIndex])
  | none =>
    match fetch_census_dataset_documents upstream with
    | .error e => .error e
    | .ok documents =>
      let vectordb := create_vectordb documents
      .ok (vectordb, some vectordb, [.fetchCatalog, .embedDocs, .saveIndex])

/-- The inner dict comprehension of `lookup_dataset_fips`
(`census_api.py` line 261) over the already-enumerated header: for each
`(idx, col)` pair, index `row[idx]` (IndexError — `none` — when out of
range) and map `col` to it. -/
def rowEntry (row : List String) : List (Nat × String) → Option (List (String × String))
  | [] => some []
  | p :: rest =>
    match row.get? p.1 with
    | none => none
    | some v => (rowEntry row rest).map (fun e => (p.2, v) :: e)

/-- The columns kept by the comprehension: `enumerate(header)` minus
index 0. -/
def headerCols (header : List String) : List (Nat × String) :=
  header.enum.filter (fun p => p.1 != 0)

/-- The outer dict comprehension of `lookup_dataset_fips`
(`census_api.py` lines 260-263): one `(row[0], inner dict)` entry per row,
raising IndexError when a row is empty or shorter than the header. -/
def buildLookupDict (header : List String) :
    List (List String) → Except PyError (List (String × List (String × String)))
  | [] => .ok []
  | row :: rest =>
    match row.head?, rowEntry row (headerCols header) with
    | some k, some e => (buildLookupDict header rest).map (fun d => (k, e) :: d)
    | _, _ => .error .indexError

/-- Python dict lookup on a dict built from an association list in which a
later binding of the same key overwrites an earlier one: the last matching
entry wins. -/
def dictGet {β : Type} (entries : List (String × β)) (name : String) : Option β :=
  entries.reverse.lookup name

/-- `lookup_dataset_fips` (`census_api.py` lines 223-266) with the HTTP
fetch abstracted: `resp` is the row-major table returned by
`fetch_dataset_fips`.  `header, *rows = resp` raises ValueError on an empty
response; the dict comprehension raises IndexError on a short row; the
final `lookup_dict[name]` raises KeyError when the name is not a key. -/
def lookup_dataset_fips (resp : List (List String)) (name : String) :
    Except PyError (List (String × String)) :=
  match resp with
  | [] => .error .valueError
  | header :: rows =>
    match buildLookupDict header rows with
    | .error e => .error e
    | .ok lookup_dict =>
      match dictGet lookup_dict name with
      | some lookup_value => .ok lookup_value
      | none => .error .keyError

/-! ### Helper lemmas -/

theorem enumFrom_filter_snd_length {α : Type} (p : α → Bool) :
    ∀ (l : List α) (n : Nat),
      ((List.enumFrom n l).filter (fun q => p q.2)).length = (l.filter p).length := by
  intro l
  induction l with
  | nil => intro n; rfl
  | cons a t ih =>
    intro n
    rw [List.enumFrom_cons, List.filter_cons, List.filter_cons]
    cases h : p a <;> simp [h, ih]

theorem snd_mem_of_mem_enum {α : Type} {x : Nat × α} {l : List α}
    (hx : x ∈ l.enum) : x.2 ∈ l := by
  have := List.mem_map_of_mem Prod.snd hx
  rwa [List.enum_map_snd] at this

theorem mem_similaritySearchRanked {μ : Type} {sim : String → String → ℚ}
    {db : VectorDB μ} {q : String} {k : Nat} {flt : μ → Bool}
    {x : Nat × Document μ} (hx : x ∈ similaritySearchRanked sim db q k flt) :
    x.2 ∈ db.docs ∧ flt x.2.metadata = true := by
  unfold similaritySearchRanked at hx
  have h1 := List.take_subset k _ hx
  rw [List.mem_insertionSort] at h1
  rw [List.mem_filter] at h1
  exact ⟨snd_mem_of_mem_enum h1.1, h1.2⟩

theorem mem_similarity_search {μ : Type} {sim : String → String → ℚ}
    {db : VectorDB μ} {q : String} {k : Nat} {flt : μ → Bool}
    {d : Document μ} (hd : d ∈ similarity_search sim db q k flt) :
    d ∈ db.docs ∧ flt d.metadata = true := by
  unfold similarity_search at hd
  rw [List.mem_map] at hd
  obtain ⟨x, hx, hxd⟩ := hd
  have := mem_similaritySearchRanked hx
  rwa [hxd] at this

theorem similaritySearchRanked_nodup_fst {μ : Type} (sim : String → String → ℚ)
    (db : VectorDB μ) (q : String) (k : Nat) (flt : μ → Bool) :
    ((similaritySearchRanked sim db q k flt).map Prod.fst).Nodup := by
  have h1 : (db.docs.enum.map Prod.fst).Nodup := by
    rw [List.enum_map_fst]; exact List.nodup_range _
  have h2 : ((db.docs.enum.filter (fun p => flt p.2.metadata)).map Prod.fst).Nodup :=
    List.Nodup.sublist (List.Sublist.map Prod.fst (List.filter_sublist _)) h1
  have h3 := (List.perm_insertionSort (rankLE sim q)
    (db.docs.enum.filter (fun p => flt p.2.metadata))).map Prod.fst
  have h4 := h3.nodup_iff.mpr h2
  exact List.Nodup.sublist
    (List.Sublist.map Prod.fst (List.take_sublist k _)) h4

theorem similaritySearchRanked_pairwise {μ : Type} (sim : String → String → ℚ)
    (db : VectorDB μ) (q : String) (k : Nat) (flt : μ → Bool) :
    (similaritySearchRanked sim db q k flt).Pairwise (rankLE sim q) := by
  exact List.Pairwise.sublist (List.take_sublist k _)
    (List.sorted_insertionSort (rankLE sim q) _)

theorem lookup_eq_none_of_forall_ne {β : Type} (a : String) :
    ∀ (l : List (String × β)), (∀ p ∈ l, p.1 ≠ a) → l.lookup a = none := by
  intro l
  induction l with
  | nil => intro _; rfl
  | cons p t ih =>
    intro h
    obtain ⟨k, v⟩ := p
    rw [List.lookup_cons]
    have hk : k ≠ a := h (k, v) (List.mem_cons_self _ _)
    have : (a == k) = false := by
      rw [beq_eq_false_iff_ne]
      exact fun hak => hk hak.symm
    rw [this]
    exact ih (fun p hp => h p (List.mem_cons_of_mem _ hp))

theorem lookup_isSome_of_mem_fst {β : Type} (a : String) :
    ∀ (l : List (String × β)), a ∈ l.map Prod.fst → ∃ v, l.lookup a = some v := by
  intro l
  induction l with
  | nil => intro h; simp at h
  | cons p t ih =>
    intro h
    obtain ⟨k, v⟩ := p
    rw [List.map_cons] at h
    rw [List.lookup_cons]
    by_cases hk : a = k
    · rw [show (a == k) = true from beq_iff_eq.mpr hk]
      exact ⟨v, rfl⟩
    · rw [show (a == k) = false from beq_eq_false_iff_ne.mpr hk]
      rcases List.mem_cons.mp h with h0 | ht
      · exact absurd h0 hk
      · exact ih ht

theorem lookup_append_of_forall_ne {β : Type} (a : String) :
    ∀ (l₁ l₂ : List (String × β)), (∀ p ∈ l₁, p.1 ≠ a) →
      (l₁ ++ l₂).lookup a = l₂.lookup a := by
  intro l₁ l₂
  induction l₁ with
  | nil => intro _; rfl
  | cons p t ih =>
    intro h
    obtain ⟨k, v⟩ := p
    rw [List.cons_append, List.lookup_cons]
    have hk : k ≠ a := h (k, v) (List.mem_cons_self _ _)
    have : (a == k) = false := by
      rw [beq_eq_false_iff_ne]
      exact fun hak => hk hak.symm
    rw [this]
    exact ih (fun p hp => h p (List.mem_cons_of_mem _ hp))

theorem rowEntry_enumFrom (row : List String) :
    ∀ (t : List String) (n : Nat), n + t.length ≤ row.length →
      rowEntry row (List.enumFrom n t) = some (t.zip (row.drop n)) := by
  intro t
  induction t with
  | nil => intro n _; rfl
  | cons a t' ih =>
    intro n hn
    have hlt : n < row.length := by simp at hn; omega
    rw [List.enumFrom_cons]
    unfold rowEntry
    rw [show row.get? n = some (row.get ⟨n, hlt⟩) from List.get?_eq_get hlt]
    rw [ih (n + 1) (by simp at hn ⊢; omega)]
    rw [List.drop_eq_getElem_cons hlt, List.zip_cons_cons]
    simp [Option.map]

theorem enumFrom_filter_ne_zero :
    ∀ (t : List String) (n : Nat), 0 < n →
      (List.enumFrom n t).filter (fun p => p.1 != 0) = List.enumFrom n t := by
  intro t
  induction t with
  | nil => intro n _; rfl
  | cons a t' ih =>
    intro n hn
    rw [List.enumFrom_cons, List.filter_cons]
    have : (n != 0) = true := by
      rw [bne_iff_ne]; omega
    rw [if_pos this]
    rw [ih (n + 1) (by omega)]

theorem headerCols_cons (h : String) (t : List String) :
    headerCols (h :: t) = List.enumFrom 1 t := by
  unfold headerCols
  rw [List.enum_cons, List.filter_cons]
  simp only [show ((0 : Nat) != 0) = false from rfl, Bool.false_eq_true, if_false]
  exact enumFrom_filter_ne_zero t 1 (by omega)

theorem rowEntry_headerCols {header row : List String} (hh : header ≠ [])
    (hlen : header.length ≤ row.length) :
    rowEntry row (headerCols header) = some ((header.zip row).drop 1) := by
  obtain ⟨h, t, rfl⟩ : ∃ h t, header = h :: t := by
    cases header with
    | nil => exact absurd rfl hh
    | cons h t => exact ⟨h, t, rfl⟩
  rw [headerCols_cons]
  cases row with
  | nil => simp at hlen
  | cons r0 row' =>
    rw [rowEntry_enumFrom (r0 :: row') t 1 (by simp at hlen ⊢; omega)]
    simp [List.zip_cons_cons]

theorem buildLookupDict_ok {header : List String} (hh : header ≠ []) :
    ∀ (rows : List (List String)), (∀ r ∈ rows, r.length = header.length) →
      buildLookupDict header rows =
        .ok (rows.map (fun row => (row.headD "", (header.zip row).drop 1))) := by
  intro rows
  induction rows with
  | nil => intro _; rfl
  | cons row rest ih =>
    intro hr
    have hrow : row.length = header.length := hr row (List.mem_cons_self _ _)
    have hpos : 0 < row.length := by
      rw [hrow]
      cases header with
      | nil => exact absurd rfl hh
      | cons a t => simp
    obtain ⟨r0, row', rfl⟩ : ∃ r0 row', row = r0 :: row' := by
      cases row with
      | nil => simp at hpos
      | cons r0 row' => exact ⟨r0, row', rfl⟩
    unfold buildLookupDict
    rw [show (r0 :: row').head? = some r0 from rfl]
    rw [rowEntry_headerCols hh (le_of_eq hrow.symm)]
    rw [ih (fun r hrr => hr r (List.mem_cons_of_mem _ hrr))]
    simp [Except.map, List.headD_cons]

/-! ### Concrete fixtures used by witnesses and counterexamples -/

/-- A degenerate similarity oracle: every document is equally similar. -/
def simZero : String → String → ℚ := fun _ _ => 0

/-- Rendering of a trivial variable definition. -/
def rendUnit : Unit → String := fun _ => ""

def meta2020 : DSMeta :=
  { c_vintage := some 2020, title := none, description := none,
    c_dataset := none, distribution := none,
    apiBaseURL := "https://api.census.gov/data/2020/dec/pl", key := "dec/pl" }

def doc2020 : Document DSMeta := { content := "doc2020", metadata := meta2020 }

def db2020 : VectorDB DSMeta := { docs := [doc2020] }

def emptyDB : VectorDB DSMeta := { docs := [] }

/-- A descriptor with every optional upstream field absent, including the
`distribution` list. -/
def bareDescriptor : DatasetDescriptor :=
  { c_vintage := none, title := none, description := none,
    c_dataset := none, distribution := none }

/-! ### Helper lemmas about ingestion -/

theorem mapDatasetDescriptor_ok_of_dist_cons {ds : DatasetDescriptor}
    {e : DistEntry} {l : List DistEntry} (h : ds.distribution = some (e :: l)) :
    ∃ d, mapDatasetDescriptor ds = .ok d := by
  unfold mapDatasetDescriptor
  rw [h]
  exact ⟨_, rfl⟩

theorem fetch_census_dataset_documents_ok :
    ∀ (data : List DatasetDescriptor),
      (∀ ds ∈ data, ds.distribution.getD [] ≠ []) →
      ∃ docs, fetch_census_dataset_documents data = .ok docs ∧
        docs.length = data.length := by
  intro data
  induction data with
  | nil => intro _; exact ⟨[], rfl, rfl⟩
  | cons ds rest ih =>
    intro h
    have hne : ds.distribution.getD [] ≠ [] := h ds (List.mem_cons_self _ _)
    obtain ⟨e, l, hel⟩ := List.exists_cons_of_ne_nil hne
    have hdist : ds.distribution = some (e :: l) := by
      cases hd : ds.distribution with
      | none => rw [hd] at hel; simp [Option.getD] at hel
      | some xs => rw [hd] at hel; simp [Option.getD] at hel; rw [hel]
    obtain ⟨d, hd⟩ := mapDatasetDescriptor_ok_of_dist_cons hdist
    obtain ⟨docs, hdocs, hlen⟩ := ih (fun x hx => h x (List.mem_cons_of_mem _ hx))
    refine ⟨d :: docs, ?_, by simp [hlen]⟩
    unfold fetch_census_dataset_documents at hdocs ⊢
    rw [List.mapM_cons, hd, hdocs]
    rfl

/-! ### Claims -/

/-- C1 (counterexample): the claim says the ingestion mapping substitutes a
placeholder and still produces a Document for a descriptor whose
`distribution` list is empty, never aborting; on the code,
`dataset.get("distribution", [])[0]` raises `IndexError` on such a
descriptor, aborting the whole mapping. -/
theorem claim_C1_counterexample :
    fetch_census_dataset_documents
      [{ c_vintage := none, title := none, description := none,
         c_dataset := none, distribution := some [] }] = .error .indexError := rfl

/-- C1 (amended): for a descriptor missing `c_vintage`, `title` or
`description`, or whose first distribution entry lacks `accessURL`, the
mapping substitutes the documented placeholder strings and produces a
Document, and the whole ingestion succeeds whenever every descriptor has a
non-empty `distribution` list; but a descriptor whose `distribution` list
is absent or empty makes the mapping raise `IndexError` (it does not get a
placeholder and the ingestion aborts). -/
theorem claim_C1_theorem :
    (∀ ds : DatasetDescriptor, ds.distribution.getD [] = [] →
      fetch_census_dataset_documents [ds] = .error .indexError) ∧
    (∀ (ds : DatasetDescriptor) (e : DistEntry) (l : List DistEntry),
      ds.distribution = some (e :: l) → ∃ d, mapDatasetDescriptor ds = .ok d) ∧
    (∀ data : List DatasetDescriptor,
      (∀ ds ∈ data, ds.distribution.getD [] ≠ []) →
      ∃ docs, fetch_census_dataset_documents data = .ok docs ∧
        docs.length = data.length) ∧
    (mapDatasetDescriptor
      { c_vintage := none, title := none, description := none,
        c_dataset := none, distribution := some [{ accessURL := none }] } =
      .ok { content := "Vintage: Unknown Vintage\nDataset: \nAPI base URL: No API Base URL\nTitle: No Title\nDescription: No Description"
            metadata :=
              { c_vintage := none, title := none, description := none,
                c_dataset := none, distribution := some [{ accessURL := none }],
                apiBaseURL := "No API Base URL", key := "" } }) := by
  refine ⟨?_, ?_, fetch_census_dataset_documents_ok, rfl⟩
  · intro ds h
    have hmap : mapDatasetDescriptor ds = .error .indexError := by
      unfold mapDatasetDescriptor
      rw [h]
      rfl
    unfold fetch_census_dataset_documents
    rw [List.mapM_cons, hmap]
    rfl
  · intro ds e l h
    exact mapDatasetDescriptor_ok_of_dist_cons h

/-- C1 (witness for the amended theorem): a descriptor with no
`distribution` key at all makes the ingestion abort with `IndexError`. -/
theorem claim_C1_witness :
    fetch_census_dataset_documents [bareDescriptor] = .error .indexError :=
  claim_C1_theorem.1 bareDescriptor rfl

/-- C2: variable search over an empty catalog: with a truthy query and an
upstream response whose `variables` mapping is empty,
`fetch_dataset_variables` returns `{"variables": {}}` and raises no error,
and the underlying `quick_faiss_search` on an empty document list returns
the empty list for every query and `top_k`. -/
theorem claim_C2_theorem (sim : String → String → ℚ) {δ ρ μ : Type}
    (renderDef : δ → String) (rest : List (String × ρ)) (q : String)
    (hq : q ≠ "") :
    fetch_dataset_variables sim renderDef { vars := [], rest := rest }
        (some q) = { vars := [], rest := [] } ∧
    (∀ (q' : String) (tk : Nat),
      quick_faiss_search sim ([] : List (Document μ)) q' tk = []) := by
  have ht : truthyStr (some q) = true := by
    unfold truthyStr
    exact bne_iff_ne.mpr hq
  constructor
  · unfold fetch_dataset_variables
    rw [if_pos ht]
    rfl
  · intro q' tk
    simp [quick_faiss_search, similarity_search, similaritySearchRanked,
      List.take_nil]

/-- C2 (witness): empty catalog, concrete query. -/
theorem claim_C2_witness :
    fetch_dataset_variables simZero rendUnit
        ({ vars := [], rest := [] } : VarsResponse Unit Unit) (some "income") =
      { vars := [], rest := [] } :=
  (claim_C2_theorem simZero (μ := Unit) rendUnit [] "income" (by decide)).1

/-- C6: `load_or_create_vectordb` deserializes the index from disk exactly
when one is persisted (logging only a load, no fetch and no embedding), and
otherwise fetches the catalog, builds the index, persists it and returns
it; an absent store is not an error.  The action log of a successful run
contains a catalog fetch or an embedding exactly when the store was
absent. -/
theorem claim_C6_theorem (disk : Option (VectorDB DSMeta))
    (upstream : List DatasetDescriptor) :
    (∀ db, disk = some db →
      load_or_create_vectordb disk upstream = .ok (db, some db, [.loadIndex])) ∧
    (∀ docs, disk = none → fetch_census_dataset_documents upstream = .ok docs →
      load_or_create_vectordb disk upstream =
        .ok (create_vectordb docs, some (create_vectordb docs),
          [.fetchCatalog, .embedDocs, .saveIndex])) ∧
    (∀ r, load_or_create_vectordb disk upstream = .ok r →
      ((BuildAction.fetchCatalog ∈ r.2.2 ∨ BuildAction.embedDocs ∈ r.2.2) ↔
        disk = none)) := by
  cases disk with
  | some db' =>
    refine ⟨?_, ?_, ?_⟩
    · intro db h
      rw [Option.some_inj] at h
      rw [h]
      rfl
    · intro docs h
      exact absurd h (by simp)
    · intro r hr
      unfold load_or_create_vectordb at hr
      rw [Except.ok.injEq] at hr
      rw [← hr]
      simp
  | none =>
    refine ⟨?_, ?_, ?_⟩
    · intro db h
      exact absurd h (by simp)
    · intro docs _ hf
      unfold load_or_create_vectordb
      rw [hf]
    · intro r hr
      unfold load_or_create_vectordb at hr
      cases hf : fetch_census_dataset_documents upstream with
      | error e => rw [hf] at hr; exact absurd hr (by simp)
      | ok docs =>
        rw [hf] at hr
        rw [Except.ok.injEq] at hr
        rw [← hr]
        simp

/-- C6 (witness): with a persisted index present, the index is returned
from disk with only a load action. -/
theorem claim_C6_witness :
    load_or_create_vectordb (some emptyDB) [] =
      .ok (emptyDB, some emptyDB, [.loadIndex]) :=
  (claim_C6_theorem (some emptyDB) []).1 emptyDB rfl

/-- C9: falsy filter arguments — `vintage = 0`, `key = ""`,
`api_base_url = ""` — are silently treated as absent by
`search_census_datasets`: the search result is identical to the one with
the corresponding argument omitted. -/
theorem claim_C9_theorem (sim : String → String → ℚ) (q : String) (k : Nat)
    (v : Option Int) (ky ab : Option String) (db : VectorDB DSMeta) :
    search_census_datasets sim q k (some 0) ky ab db =
      search_census_datasets sim q k none ky ab db ∧
    search_census_datasets sim q k v (some "") ab db =
      search_census_datasets sim q k v none ab db ∧
    search_census_datasets sim q k v ky (some "") db =
      search_census_datasets sim q k v ky none db := by
  refine ⟨rfl, rfl, rfl⟩

/-- C10: with `query = None` or `query = ""`, `fetch_dataset_variables`
returns the upstream response completely unchanged — the semantic-filtering
branch (embedding, index construction, reshaping) is not taken. -/
theorem claim_C10_theorem (sim : String → String → ℚ) {δ ρ : Type}
    (renderDef : δ → String) (resp : VarsResponse δ ρ) :
    fetch_dataset_variables sim renderDef resp none = resp ∧
    fetch_dataset_variables sim renderDef resp (some "") = resp := by
  exact ⟨rfl, rfl⟩

theorem count_matching (f : MetaFilter) (l : List (Document DSMeta)) :
    ((List.enumFrom 0 l).filter (fun p => matchesFilter f p.2.metadata)).length =
      (l.filter (fun d => matchesFilter f d.metadata)).length :=
  enumFrom_filter_snd_length (fun d => matchesFilter f d.metadata) l 0

/-- C3: with `k ≥ 1`, the number of content strings returned by
`search_census_datasets` equals the minimum of `k` and the number of
indexed documents whose metadata satisfies the constructed filter; in
particular it is at most `k`, and it is empty (no padding, no error) when
zero documents match. -/
theorem claim_C3_theorem (sim : String → String → ℚ) (q : String) (k : Nat)
    (v : Option Int) (ky ab : Option String) (db : VectorDB DSMeta)
    (_hk : 1 ≤ k) :
    (search_census_datasets sim q k v ky ab db).length =
      min k ((db.docs.filter
        (fun d => matchesFilter (mkFilter v ky ab) d.metadata)).length) ∧
    (search_census_datasets sim q k v ky ab db).length ≤ k ∧
    (db.docs.filter (fun d => matchesFilter (mkFilter v ky ab) d.metadata) = [] →
      search_census_datasets sim q k v ky ab db = []) := by
  have hlen : (search_census_datasets sim q k v ky ab db).length =
      min k ((db.docs.filter
        (fun d => matchesFilter (mkFilter v ky ab) d.metadata)).length) := by
    unfold search_census_datasets search_census_datasets_docs similarity_search
      similaritySearchRanked
    rw [List.length_map, List.length_map, List.length_take,
      List.length_insertionSort, List.enum_eq_enumFrom, count_matching]
  refine ⟨hlen, ?_, ?_⟩
  · rw [hlen]
    exact Nat.min_le_left _ _
  · intro h0
    rw [← List.length_eq_zero, hlen, h0]
    simp

/-- C3 (witness): concrete index with one 2020 document, no filter. -/
theorem claim_C3_witness :
    (search_census_datasets simZero "redistricting" 5 none none none
        db2020).length =
      min 5 ((db2020.docs.filter
        (fun d => matchesFilter (mkFilter none none none) d.metadata)).length) :=
  (claim_C3_theorem simZero "redistricting" 5 none none none db2020
    (by decide)).1

/-- C4 (counterexample): the claim says every returned document agrees with
every supplied filter value; with the supplied (falsy) filter value
`vintage = 0`, the search returns a document whose `c_vintage` is 2020, so
a returned document disagrees with a supplied filter key. -/
theorem claim_C4_counterexample :
    ¬ (∀ d ∈ search_census_datasets_docs simZero "q" 1 (some 0) none none
        db2020, d.metadata.c_vintage = some 0) := by decide

/-- C4 (amended): every document returned by `search_census_datasets`
agrees with every supplied truthy filter value — `vintage = n` with
`n ≠ 0` forces `c_vintage = n`, `key = s` with `s ≠ ""` forces `key = s`,
and `api_base_url = s` with `s ≠ ""` forces `apiBaseURL = s` — regardless
of textual similarity.  (Falsy supplied values are dropped, see C9.) -/
theorem claim_C4_theorem (sim : String → String → ℚ) (q : String) (k : Nat)
    (v : Option Int) (ky ab : Option String) (db : VectorDB DSMeta)
    (d : Document DSMeta)
    (hd : d ∈ search_census_datasets_docs sim q k v ky ab db) :
    (∀ n : Int, v = some n → n ≠ 0 → d.metadata.c_vintage = some n) ∧
    (∀ s : String, ky = some s → s ≠ "" → d.metadata.key = s) ∧
    (∀ s : String, ab = some s → s ≠ "" → d.metadata.apiBaseURL = s) := by
  unfold search_census_datasets_docs at hd
  have hm := (mem_similarity_search hd).2
  refine ⟨?_, ?_, ?_⟩
  · intro n hv hn
    subst hv
    have htruthy : truthyInt (some n) = true := by
      unfold truthyInt
      exact bne_iff_ne.mpr hn
    unfold matchesFilter mkFilter at hm
    rw [htruthy] at hm
    simp only [if_true, Bool.and_eq_true] at hm
    exact beq_iff_eq.mp hm.1.1
  · intro s hv hs
    subst hv
    have htruthy : truthyStr (some s) = true := by
      unfold truthyStr
      exact bne_iff_ne.mpr hs
    unfold matchesFilter mkFilter at hm
    rw [htruthy] at hm
    simp only [if_true, Bool.and_eq_true] at hm
    exact beq_iff_eq.mp hm.1.2
  · intro s hv hs
    subst hv
    have htruthy : truthyStr (some s) = true := by
      unfold truthyStr
      exact bne_iff_ne.mpr hs
    unfold matchesFilter mkFilter at hm
    rw [htruthy] at hm
    simp only [if_true, Bool.and_eq_true] at hm
    exact beq_iff_eq.mp hm.2

/-- C4 (witness): supplying the truthy filter `vintage = 2020` and getting
back the 2020 document, whose metadata indeed agrees. -/
theorem claim_C4_witness :
    doc2020.metadata.c_vintage = some 2020 :=
  (claim_C4_theorem simZero "q" 1 (some 2020) none none db2020 doc2020
    (by decide)).1 2020 rfl (by decide)

/-- C5: with a truthy query, every `(name, definition)` entry of the
mapping returned by `fetch_dataset_variables` is an entry of the upstream
`variables` mapping — keys are a subset and values are unchanged. -/
theorem claim_C5_theorem (sim : String → String → ℚ) {δ ρ : Type}
    (renderDef : δ → String) (resp : VarsResponse δ ρ) (q : String)
    (hq : q ≠ "") (p : String × δ)
    (hp : p ∈ (fetch_dataset_variables sim renderDef resp (some q)).vars) :
    p ∈ resp.vars := by
  have ht : truthyStr (some q) = true := by
    unfold truthyStr
    exact bne_iff_ne.mpr hq
  unfold fetch_dataset_variables at hp
  rw [if_pos ht] at hp
  simp only [List.mem_map] at hp
  obtain ⟨d, hd, hdp⟩ := hp
  unfold quick_faiss_search at hd
  have hsub := (mem_similarity_search hd).1
  simp only [List.mem_map] at hsub
  obtain ⟨p', hp', hp'd⟩ := hsub
  rw [← hp'd] at hdp
  simp only at hdp
  rw [← hdp]
  exact hp'

def respA : VarsResponse Unit Unit := { vars := [("A", ())], rest := [] }

/-- C5 (witness): a one-variable catalog; the returned entry is the
catalog entry. -/
theorem claim_C5_witness : ("A", ()) ∈ respA.vars :=
  claim_C5_theorem simZero rendUnit respA "pop" (by decide) ("A", ())
    (by decide)

/-- C7: both search entry points return projections of the ranked candidate
list, and that list is ordered by strictly descending similarity to the
query, with candidates of equal similarity appearing in index insertion
order (smaller insertion index first). -/
theorem claim_C7_theorem {μ ν : Type} (sim : String → String → ℚ)
    (q : String) (k tk : Nat) (v : Option Int) (ky ab : Option String)
    (db : VectorDB DSMeta) (docs : List (Document ν)) (db2 : VectorDB μ)
    (flt : μ → Bool) :
    search_census_datasets sim q k v ky ab db =
      (similaritySearchRanked sim db q k
        (matchesFilter (mkFilter v ky ab))).map (fun p => p.2.content) ∧
    quick_faiss_search sim docs q tk =
      (similaritySearchRanked sim { docs := docs } q tk
        (fun _ => true)).map (fun p => p.2) ∧
    (similaritySearchRanked sim db2 q k flt).Pairwise
      (fun a b => sim q b.2.content < sim q a.2.content ∨
        (sim q a.2.content = sim q b.2.content ∧ a.1 < b.1)) := by
  refine ⟨?_, rfl, ?_⟩
  · unfold search_census_datasets search_census_datasets_docs similarity_search
    rw [List.map_map]
    rfl
  · have hpw := similaritySearchRanked_pairwise sim db2 q k flt
    have hnd := similaritySearchRanked_nodup_fst sim db2 q k flt
    have hne : (similaritySearchRanked sim db2 q k flt).Pairwise
        (fun a b => a.1 ≠ b.1) := List.pairwise_map.mp hnd
    refine (List.Pairwise.and hpw hne).imp ?_
    intro a b hab
    obtain ⟨hr, hne'⟩ := hab
    have hr' : sim q b.2.content < sim q a.2.content ∨
        (sim q a.2.content = sim q b.2.content ∧ a.1 ≤ b.1) := hr
    rcases hr' with hlt | ⟨heq, hle⟩
    · exact Or.inl hlt
    · exact Or.inr ⟨heq, lt_of_le_of_ne hle hne'⟩

theorem lookup_dataset_fips_cons (header : List String)
    (rows : List (List String)) (name : String) :
    lookup_dataset_fips (header :: rows) name =
      match buildLookupDict header rows with
      | .error e => .error e
      | .ok lookup_dict =>
        match dictGet lookup_dict name with
        | some lookup_value => .ok lookup_value
        | none => .error .keyError := rfl

/-- C8: with a rectangular fetched table (every row as long as the
non-empty header), `lookup_dataset_fips` raises `KeyError` when the exact
name heads no row (no fuzzy fallback, no empty-result success); when the
name heads some row it succeeds, and the value returned is the mapping of
the remaining header columns to the values of the (last) matching row. -/
theorem claim_C8_theorem (header : List String) (rows : List (List String))
    (name : String) (hh : header ≠ [])
    (hrect : ∀ r ∈ rows, r.length = header.length) :
    ((∀ r ∈ rows, r.head? ≠ some name) →
      lookup_dataset_fips (header :: rows) name = .error .keyError) ∧
    (∀ row ∈ rows, row.head? = some name →
      ∃ e, lookup_dataset_fips (header :: rows) name = .ok e) ∧
    (∀ pre row post, rows = pre ++ row :: post → row.head? = some name →
      (∀ r ∈ post, r.head? ≠ some name) →
      lookup_dataset_fips (header :: rows) name =
        .ok ((header.zip row).drop 1)) := by
  have hbuild := buildLookupDict_ok hh rows hrect
  have hlen0 : 0 < header.length := List.length_pos.mpr hh
  have hkey : ∀ r ∈ rows, r.head? = some (r.headD "") := by
    intro r hr
    have hpos : 0 < r.length := by
      rw [hrect r hr]
      exact hlen0
    cases r with
    | nil => simp at hpos
    | cons a t => rfl
  refine ⟨?_, ?_, ?_⟩
  · intro hmiss
    have hnone : dictGet (rows.map
        (fun row => (row.headD "", (header.zip row).drop 1))) name = none := by
      unfold dictGet
      apply lookup_eq_none_of_forall_ne
      intro p hp
      rw [List.mem_reverse] at hp
      rw [List.mem_map] at hp
      obtain ⟨r, hr, hrp⟩ := hp
      have h1 := hkey r hr
      have h2 := hmiss r hr
      rw [h1] at h2
      intro hcontra
      apply h2
      rw [← hrp] at hcontra
      simp only at hcontra
      rw [hcontra]
    rw [lookup_dataset_fips_cons]
    simp only [hbuild, hnone]
  · intro row hrow hname
    have h1 := hkey row hrow
    rw [hname] at h1
    have hmem : name ∈ (rows.map
        (fun r => (r.headD "", (header.zip r).drop 1))).reverse.map Prod.fst := by
      rw [← List.map_reverse, List.mem_map]
      refine ⟨(row.headD "", (header.zip row).drop 1), ?_, ?_⟩
      · exact List.mem_map_of_mem _ (List.mem_reverse.mpr hrow)
      · exact (Option.some_inj.mp h1).symm
    obtain ⟨e, he⟩ := lookup_isSome_of_mem_fst name _ hmem
    refine ⟨e, ?_⟩
    rw [lookup_dataset_fips_cons]
    simp only [hbuild, dictGet, he]
  · intro pre row post hsplit hname hpost
    have hsome : dictGet (rows.map
        (fun r => (r.headD "", (header.zip r).drop 1))) name =
        some ((header.zip row).drop 1) := by
      unfold dictGet
      rw [hsplit]
      rw [List.map_append, List.map_cons, List.reverse_append,
        List.reverse_cons, List.append_assoc, List.singleton_append]
      rw [lookup_append_of_forall_ne name _ _ ?hpost]
      case hpost =>
        intro p hp
        rw [List.mem_reverse] at hp
        rw [List.mem_map] at hp
        obtain ⟨r, hr, hrp⟩ := hp
        have hrmem : r ∈ rows := by
          rw [hsplit]
          exact List.mem_append_right _ (List.mem_cons_of_mem _ hr)
        have h1 := hkey r hrmem
        have h2 := hpost r hr
        rw [h1] at h2
        intro hcontra
        apply h2
        rw [← hrp] at hcontra
        simp only at hcontra
        rw [hcontra]
      have hrowmem : row ∈ rows := by
        rw [hsplit]
        exact List.mem_append_right _ (List.mem_cons_self _ _)
      have h1 := hkey row hrowmem
      rw [hname] at h1
      have hkeyrow : row.headD "" = name := Option.some_inj.mp h1.symm
      rw [List.lookup_cons]
      rw [show (name == row.headD "") = true from beq_iff_eq.mpr hkeyrow.symm]
    rw [lookup_dataset_fips_cons]
    simp only [hbuild, hsome]

def fipsHeader : List String := ["NAME", "state"]

def fipsCalifornia : List String := ["California", "06"]

def fipsTexas : List String := ["Texas", "48"]

def fipsRows : List (List String) := [fipsCalifornia, fipsTexas]

/-- C8 (witness): a concrete two-row state table; looking up "California"
returns the remaining column mapped to its FIPS code. -/
theorem claim_C8_witness :
    lookup_dataset_fips (fipsHeader :: fipsRows) "California" =
      .ok ((fipsHeader.zip fipsCalifornia).drop 1) :=
  (claim_C8_theorem fipsHeader fipsRows "California"
      (by decide) (by decide)).2.2 [] fipsCalifornia [fipsTexas]
    rfl rfl (by decide)
